import Mathlib

/-!
Verification of the ONE training-compiler core and its gradient/loss
kernel library (cker/train), shallowly embedded in Lean 4.

Tensor buffers are flat lists of rationals (exact arithmetic stands in
for the C++ float arithmetic); shapes are lists of per-axis extents.
Kernels that write through an out-pointer are modelled as functions
returning the pair (thrown error?, final buffer contents), so that
"buffer left unchanged on failure" is directly expressible.
-/

namespace ONE

/-- Modelled from the spec: cker Shape objects are "rank + per-axis
extents"; a shape is the list of its extents, `FlatSize` is the total
flattened element count (product of all extents). `Shape.h` itself is
not under the examined sources. -/
def flatSize (shape : List ℕ) : ℕ := shape.prod

/-- Modelled from the spec: cker `FlatSizeSkipDim shape d` is the
flattened element count with axis `d` excluded (product of the other
extents); used by `MSE` with `d = 0` to get the per-batch-row extent. -/
def flatSizeSkipDim (shape : List ℕ) (d : ℕ) : ℕ :=
  (shape.take d ++ shape.drop (d + 1)).prod

/-- One iteration-written buffer: `writeSeq buf n f` performs the C++
loop `for (i = 0; i < n; ++i) buf[i] = f i;` on the list `buf`
(writes past the end are dropped, as `List.set` ignores them). -/
def writeSeq (buf : List ℚ) : ℕ → (ℕ → ℚ) → List ℚ
  | 0, _ => buf
  | n + 1, f => (writeSeq buf n f).set n (f n)

/-- `square` from Loss.h: `value * value`. -/
def square (value : ℚ) : ℚ := value * value

/-- `nnfw::cker::train::MSE` from Loss.h. Arguments mirror the C++
signature; `output0` is the contents of the output buffer before the
call; the result pairs the thrown error (if any) with the final buffer
contents. -/
def MSE (y_pred_shape : List ℕ) (y_pred_data : List ℚ)
    (y_true_shape : List ℕ) (y_true_data : List ℚ)
    (output_shape : List ℕ) (output0 : List ℚ) : Option String × List ℚ :=
  if output_shape.length ≠ 1 then
    (some "cker::MSE: output dimension count should be 1", output0)
  else if output_shape.getD 0 0 ≠ y_pred_shape.getD 0 0 then
    (some "cker::MSE: output and y_pred do not have the same batch", output0)
  else if y_pred_shape ≠ y_true_shape then
    (some "cker::MSE: y_pred_shape != y_true_shape", output0)
  else
    let batch := y_pred_shape.getD 0 0
    let size := flatSizeSkipDim y_pred_shape 0
    (none, writeSeq output0 batch (fun b =>
      (∑ i in Finset.range size,
        square (y_pred_data.getD (b * size + i) 0 - y_true_data.getD (b * size + i) 0))
        / (size : ℚ)))

/-- `nnfw::cker::train::MSEGrad` from Loss.h: after the two shape
checks, `grad[i] = -2 * (y_true[i] - y_pred[i]) / size` with
`size = grad_shape.FlatSize()`. -/
def MSEGrad (y_pred_shape : List ℕ) (y_pred_data : List ℚ)
    (y_true_shape : List ℕ) (y_true_data : List ℚ)
    (grad_shape : List ℕ) (grad0 : List ℚ) : Option String × List ℚ :=
  if y_pred_shape ≠ y_true_shape then
    (some "cker::MSEGrad: y_pred_shape != y_true_shape", grad0)
  else if y_pred_shape ≠ grad_shape then
    (some "cker::MSEGrad: y_pred_shape != grad_shape", grad0)
  else
    let size := flatSize grad_shape
    (none, writeSeq grad0 size (fun i =>
      -2 * (y_true_data.getD i 0 - y_pred_data.getD i 0) / (size : ℚ)))

/-- `nnfw::cker::train::checkValue` from Loss.h: scans the first `size`
elements and reports whether all lie within `[mn, mx]` (the C++ loop
returns `false` on the first element with `data[i] > max || data[i] < min`). -/
def checkValue (data : List ℚ) (size : ℕ) (mn mx : ℚ) : Bool :=
  (List.range size).all fun i =>
    !(decide (mx < data.getD i 0) || decide (data.getD i 0 < mn))

/-- The clamping constant `1.0e-20` appearing in Loss.h, read exactly. -/
def epsCCE : ℚ := 1 / 10 ^ 20

/-- `nnfw::cker::train::CategoricalCrossEntropy` from Loss.h.  The
transcendental `std::log` is abstracted as the parameter `lg`; the rest
is translated literally: the domain check, the per-batch partial sums
that skip terms whose label is zero, and the single write to
`output[0]` of the accumulated sum divided by the batch size. -/
def CategoricalCrossEntropy (lg : ℚ → ℚ) (y_pred_data y_true_data : List ℚ)
    (output0 : List ℚ) (batch_size input_size : ℕ) : Option String × List ℚ :=
  if !checkValue y_pred_data (input_size * batch_size) 0 1 then
    (some "cker::CategoricalCrossEntropy: y_pred data is not logit data.", output0)
  else
    let sum : ℕ → ℚ := fun b =>
      ∑ i in Finset.range input_size,
        if y_true_data.getD (b * input_size + i) 0 ≠ 0 then
          -(lg (max (y_pred_data.getD (b * input_size + i) 0) epsCCE)) *
            y_true_data.getD (b * input_size + i) 0
        else 0
    (none, output0.set 0 ((∑ b in Finset.range batch_size, sum b) / (batch_size : ℚ)))

/-- The value the spec ascribes to `CategoricalCrossEntropy`:
`-sum(yTrue * log(max(yPred, 1e-20))) / batchSize` with the sum ranging
over all batch rows and per-row elements (no skipping of zero labels).
Stated from the spec's words for comparison with the code's value. -/
def cceSpecValue (lg : ℚ → ℚ) (y_pred_data y_true_data : List ℚ)
    (batch_size input_size : ℕ) : ℚ :=
  -(∑ b in Finset.range batch_size, ∑ i in Finset.range input_size,
      y_true_data.getD (b * input_size + i) 0 *
        lg (max (y_pred_data.getD (b * input_size + i) 0) epsCCE))
    / (batch_size : ℚ)

/-- `nnfw::cker::train::CategoricalCrossEntropyGrad` from Loss.h:
after the domain check, `grad[b*input_size+i] =
-(y_true[k] / max(y_pred[k], 1e-20))` for every flat index `k`. -/
def CategoricalCrossEntropyGrad (y_pred_data y_true_data : List ℚ)
    (grad0 : List ℚ) (batch_size input_size : ℕ) : Option String × List ℚ :=
  if !checkValue y_pred_data (input_size * batch_size) 0 1 then
    (some "cker::CategoricalCrossEntropyGrad: y_pred data is not logit data.", grad0)
  else
    (none, writeSeq grad0 (batch_size * input_size) (fun k =>
      -(y_true_data.getD k 0 / max (y_pred_data.getD k 0) epsCCE)))

/-- Row-major decoding of a flat index into a multi-index for `shape`. -/
def unflatten : List ℕ → ℕ → List ℕ
  | [], _ => []
  | _ :: ds, f => f / ds.prod :: unflatten ds (f % ds.prod)

/-- Row-major encoding of a multi-index back into a flat index. -/
def flatten : List ℕ → List ℕ → ℕ
  | _ :: ds, x :: xs => x * ds.prod + flatten ds xs
  | _, _ => 0

/-- Modelled from the spec: cker `BroadcastTo` (operation/BroadcastTo.h,
not under the examined sources) as used by the Add gradient — a pure
reduction-broadcast that carries `data` of shape `in_shape` back to
`out_shape`; every axis of `out_shape` either matches the input axis
(coordinates pass through) or is 1 (the input axis is summed out). Each
output cell collects the input cells whose projected multi-index
(coordinate mod output extent) lands on it. -/
def BroadcastTo (in_shape : List ℕ) (data : List ℚ) (out_shape : List ℕ) : List ℚ :=
  (List.range (flatSize out_shape)).map fun j =>
    ∑ i in Finset.range (flatSize in_shape),
      if flatten out_shape (List.zipWith (· % ·) (unflatten in_shape i) out_shape) = j then
        data.getD i 0
      else 0

/-- `nnfw::cker::train::ArithmeticType` from BinaryArithmetic.h. -/
inductive ArithmeticType
  | kAdd
  | kSub
  | kMul
  | kDiv
deriving DecidableEq

/-- `nnfw::cker::train::BinaryArithmeticGrad` from BinaryArithmetic.h:
for `kAdd` it fills both gradient buffers by `BroadcastTo` of the
incoming gradient; every other kind throws before touching either
buffer. `lhs_grad0` / `rhs_grad0` are the buffers' prior contents. -/
def BinaryArithmeticGrad (incoming_shape : List ℕ) (incoming_data : List ℚ)
    (lhs_grad_shape : List ℕ) (lhs_grad0 : List ℚ)
    (rhs_grad_shape : List ℕ) (rhs_grad0 : List ℚ)
    (arithmetic_type : ArithmeticType) : Option String × (List ℚ × List ℚ) :=
  match arithmetic_type with
  | ArithmeticType.kAdd =>
    (none, (BroadcastTo incoming_shape incoming_data lhs_grad_shape,
            BroadcastTo incoming_shape incoming_data rhs_grad_shape))
  | _ => (some "Unsupported Binary Arithmetic Operation", (lhs_grad0, rhs_grad0))

/-- The compiler options consulted by `TrainingCompiler::compile`
(CompilerOptions is declared outside the examined sources; the four
fields below are exactly the ones the compile prelude reads). -/
structure CompilerOptions where
  he_profiling_mode : Bool
  he_scheduler : Bool
  executor : String
  minmax_filepath : String

/-- An operation of an inference graph. Its payload is opaque to the
training compiler's control flow (operations are only converted and
re-inserted), so a bare tag suffices. -/
structure Operation where
  kind : ℕ
deriving DecidableEq

/-- Modelled from the spec: a trainable operation is the "trainable
equivalent" produced per original operation by the converter
(TrainableOperationConverter is not under the examined sources). -/
structure TrainableOperation where
  original : Operation
deriving DecidableEq

/-- An inference graph: operations stored in an arena addressed by
stable integer indices, kept here as an index-keyed list in index
order. -/
structure Graph where
  operations : List (ℕ × Operation)

/-- A trainable graph: same arena, trainable operations. -/
structure TrainableGraph where
  operations : List (ℕ × TrainableOperation)

/-- Modelled from the spec: the `TrainableGraph(const Graph &)` copy
constructor used at part_002 line 112 copies the graph, wrapping each
operation at its existing index (indices are never renumbered). -/
def TrainableGraph.ofGraph (g : Graph) : TrainableGraph :=
  ⟨g.operations.map fun p => (p.1, ⟨p.2⟩)⟩

/-- Modelled from the spec: `TrainableGraph::replaceOperation` is a
"replace-in-place, never renumber" table update — the entry at `idx` is
replaced and the generated index returned is `idx` itself. -/
def TrainableGraph.replaceOperation (tg : TrainableGraph) (idx : ℕ)
    (op : TrainableOperation) : TrainableGraph × ℕ :=
  (⟨tg.operations.map fun p => if p.1 = idx then (idx, op) else p⟩, idx)

/-- Modelled from the spec: `TrainableOperationConverter` maps each
operation to its trainable equivalent (same payload, trainable form). -/
def convertOperation (op : Operation) : TrainableOperation := ⟨op⟩

/-- The conversion loop of `TrainingCompiler::compile` (part_002 lines
109-125): copy the graph, then iterate the original operations in index
order, replacing operation `i` with its converted form; the code
asserts that each generated index equals the original index. -/
def convertToTrainable (g : Graph) : TrainableGraph :=
  g.operations.foldl
    (fun tg p => (tg.replaceOperation p.1 (convertOperation p.2)).1)
    (TrainableGraph.ofGraph g)

/-- A model: a list of subgraphs (primary first). -/
structure Model where
  subgraphs : List Graph

/-- An NN package: a list of models (primary first). -/
structure NNPkg where
  models : List Model

/-- `nnpkg->primary_model()`. -/
def NNPkg.primaryModel (pkg : NNPkg) : Model := pkg.models.headD ⟨[]⟩

/-- The `TrainingCompiler` constructor checks (part_002 lines 47-57):
reject more than one model, then more than one subgraph in the primary
model; returns the thrown error, if any. -/
def trainingCompilerCheck (pkg : NNPkg) : Option String :=
  if pkg.models.length > 1 then
    some "TrainingCompiler does not support multiple models yet"
  else if pkg.primaryModel.subgraphs.length > 1 then
    some "TrainingCompiler does not support multiple subgraphs yet"
  else
    none

/-- The profiling block of the compile prelude (part_002 lines 69-76):
under profiling, the heterogeneous scheduler must be enabled, and the
executor must be Dataflow; the first violated condition throws. -/
def checkProfilingOptions (o : CompilerOptions) : Option String :=
  if o.he_profiling_mode then
    if !o.he_scheduler then
      some "Heterogeneous scheduler must be enabled during profiling."
    else if o.executor ≠ "Dataflow" then
      some "Profiling mode works only with Dataflow executor"
    else none
  else none

/-- The minmax block of the compile prelude (part_002 lines 78-82): a
non-empty minmax recording path requires the Linear executor. -/
def checkMinmaxOptions (o : CompilerOptions) : Option String :=
  if o.minmax_filepath ≠ "" then
    if o.executor ≠ "Linear" then
      some "Recording minmax works only with Linear executor"
    else none
  else none

/-- The option prelude of `TrainingCompiler::compile` (part_002 lines
64-82): the profiling block runs first, then the minmax block; the
first thrown error aborts the compile. -/
def checkOptions (o : CompilerOptions) : Option String :=
  match checkProfilingOptions o with
  | some e => some e
  | none => checkMinmaxOptions o

/-- Observable graph work performed by a compile call: a pass body
running on a subgraph, or one operation being converted. -/
inductive TrainEvent
  | passRun (name : String)
  | opConvert (idx : ℕ)
deriving DecidableEq

/-- The events one subgraph contributes: the two mandatory passes, the
optimization pass, then the per-operation conversions (part_002 lines
89-125). -/
def subgraphEvents (g : Graph) : List TrainEvent :=
  [TrainEvent.passRun "ConstantOutputPass",
   TrainEvent.passRun "OddOutputPass",
   TrainEvent.passRun "UnusedOperandEliminationPass"] ++
    g.operations.map fun p => TrainEvent.opConvert p.1

/-- `TrainingCompiler` end to end: construction checks, then the option
prelude of `compile`, then the pass/conversion work. The first
component is the trace of graph work actually performed; a rejected
compile performs none and returns the thrown error. -/
def trainingCompile (pkg : NNPkg) (o : CompilerOptions) :
    List TrainEvent × Except String (List TrainableGraph) :=
  match trainingCompilerCheck pkg with
  | some e => ([], Except.error e)
  | none =>
    match checkOptions o with
    | some e => ([], Except.error e)
    | none =>
      ((pkg.primaryModel.subgraphs.map subgraphEvents).flatten,
       Except.ok (pkg.primaryModel.subgraphs.map convertToTrainable))

end ONE

namespace ONE

theorem writeSeq_length (buf : List ℚ) (n : ℕ) (f : ℕ → ℚ) :
    (writeSeq buf n f).length = buf.length := by
  induction n with
  | zero => rfl
  | succ n ih => simp [writeSeq, ih]

theorem writeSeq_getElem (buf : List ℚ) (n : ℕ) (f : ℕ → ℚ) (i : ℕ) :
    (writeSeq buf n f)[i]? =
      if i < n ∧ i < buf.length then some (f i) else buf[i]? := by
  induction n with
  | zero => simp [writeSeq]
  | succ n ih =>
    rw [writeSeq, List.getElem?_set, writeSeq_length, ih]
    by_cases hni : n = i
    · subst hni
      by_cases hlen : n < buf.length
      · simp [hlen]
      · simp [hlen, List.getElem?_eq_none (Nat.le_of_not_lt hlen)]
    · have : (i < n + 1 ∧ i < buf.length) ↔ (i < n ∧ i < buf.length) := by
        constructor
        · rintro ⟨h1, h2⟩; exact ⟨by omega, h2⟩
        · rintro ⟨h1, h2⟩; exact ⟨by omega, h2⟩
      simp [hni, this]

/-- When the buffer is long enough, the C++ write loop fills the first
`n` cells with `f` and leaves the tail alone. -/
theorem writeSeq_eq (buf : List ℚ) (n : ℕ) (f : ℕ → ℚ) (h : n ≤ buf.length) :
    writeSeq buf n f = (List.range n).map f ++ buf.drop n := by
  apply List.ext_getElem?
  intro i
  rw [writeSeq_getElem]
  by_cases hi : i < n
  · rw [List.getElem?_append_left (by simp [hi])]
    simp [hi, Nat.lt_of_lt_of_le hi h]
  · rw [List.getElem?_append_right (by simp [Nat.le_of_not_lt hi])]
    simp only [List.length_map, List.length_range, List.getElem?_drop]
    have : n + (i - n) = i := by omega
    rw [this]
    simp [hi]

/-- C1: for `kind = Add`, `BinaryArithmeticGrad` reduction-broadcasts
the incoming gradient back to each operand's original shape; in
particular, with incoming shape `[2,3]` and operand shapes `[2,3]` and
`[1,3]`, the lhs gradient equals the incoming gradient element-for-
element and the rhs gradient is the incoming gradient summed over
axis 0. -/
theorem binaryArithmeticGrad_add_broadcast :
    (∀ (in_s : List ℕ) (d : List ℚ) (lhs_s : List ℕ) (l0 : List ℚ)
        (rhs_s : List ℕ) (r0 : List ℚ),
      BinaryArithmeticGrad in_s d lhs_s l0 rhs_s r0 ArithmeticType.kAdd
        = (none, (BroadcastTo in_s d lhs_s, BroadcastTo in_s d rhs_s)))
    ∧ ∀ (a b c d e f : ℚ) (l0 r0 : List ℚ),
      BinaryArithmeticGrad [2, 3] [a, b, c, d, e, f] [2, 3] l0 [1, 3] r0
          ArithmeticType.kAdd
        = (none, ([a, b, c, d, e, f], [a + d, b + e, c + f])) := by
  refine ⟨fun _ _ _ _ _ _ => rfl, fun a b c d e f l0 r0 => ?_⟩
  show (none, (BroadcastTo [2, 3] [a, b, c, d, e, f] [2, 3],
               BroadcastTo [2, 3] [a, b, c, d, e, f] [1, 3])) = _
  have hl : BroadcastTo [2, 3] [a, b, c, d, e, f] [2, 3]
      = [a, b, c, d, e, f] := by
    simp [BroadcastTo, flatSize, unflatten, flatten, List.range_succ,
      Finset.sum_range_succ]
  have hr : BroadcastTo [2, 3] [a, b, c, d, e, f] [1, 3]
      = [a + d, b + e, c + f] := by
    simp [BroadcastTo, flatSize, unflatten, flatten, List.range_succ,
      Finset.sum_range_succ]
  rw [hl, hr]

/-- C8: `BinaryArithmeticGrad` with kind `Sub`, `Mul` or `Div` always
throws, leaving both gradient buffers untouched; a call succeeds
exactly when the kind is `Add`. -/
theorem binaryArithmeticGrad_rejects_non_add :
    ∀ (in_s : List ℕ) (d : List ℚ) (lhs_s : List ℕ) (l0 : List ℚ)
      (rhs_s : List ℕ) (r0 : List ℚ),
      (∀ t ∈ [ArithmeticType.kSub, ArithmeticType.kMul, ArithmeticType.kDiv],
        (BinaryArithmeticGrad in_s d lhs_s l0 rhs_s r0 t).1.isSome = true
        ∧ (BinaryArithmeticGrad in_s d lhs_s l0 rhs_s r0 t).2 = (l0, r0))
      ∧ ∀ t : ArithmeticType,
          ((BinaryArithmeticGrad in_s d lhs_s l0 rhs_s r0 t).1 = none
            ↔ t = ArithmeticType.kAdd) := by
  intro in_s d lhs_s l0 rhs_s r0
  constructor
  · intro t ht
    simp only [List.mem_cons, List.not_mem_nil, or_false] at ht
    rcases ht with h | h | h <;> subst h <;> exact ⟨rfl, rfl⟩
  · intro t
    cases t <;> simp [BinaryArithmeticGrad]

/-- C2 (counterexample): at `y_pred = [0,0]`, `y_true = [1,1]`, shapes
all `[2,1]`, the written gradient is `[-1,-1]` — the code divides by
the total flat size 2 — whereas dividing by the per-batch element
count `flatSizeSkipDim [2,1] 0 = 1`, as the claim states, would give
`[-2,-2]`. -/
theorem mseGrad_perBatch_size_counterexample :
    (MSEGrad [2, 1] [0, 0] [2, 1] [1, 1] [2, 1] [9, 9]).1 = none
    ∧ (MSEGrad [2, 1] [0, 0] [2, 1] [1, 1] [2, 1] [9, 9]).2 = [-1, -1]
    ∧ ¬ (MSEGrad [2, 1] [0, 0] [2, 1] [1, 1] [2, 1] [9, 9]).2
        = (List.range 2).map (fun i =>
            -2 * (([1, 1].getD i 0 : ℚ) - ([0, 0] : List ℚ).getD i 0)
              / (flatSizeSkipDim [2, 1] 0 : ℚ)) := by
  have h2 : (MSEGrad [2, 1] [0, 0] [2, 1] [1, 1] [2, 1] [9, 9]).2
      = (List.range 2).map (fun i =>
          -2 * (([1, 1].getD i 0 : ℚ) - ([0, 0] : List ℚ).getD i 0) / (2 : ℚ))
        ++ ([9, 9] : List ℚ).drop 2 := writeSeq_eq _ 2 _ (by norm_num)
  refine ⟨rfl, ?_, ?_⟩
  · rw [h2]
    norm_num [List.range_succ]
  · rw [h2]
    norm_num [List.range_succ, flatSizeSkipDim]

/-- C2 (amended): with identical `y_pred`/`y_true`/`grad` shapes and a
grad buffer of the full flat size, `MSEGrad` writes
`grad[i] = -2 * (y_true[i] - y_pred[i]) / size` where `size` is the
TOTAL flattened element count (`FlatSize`, batch dimension included);
any shape mismatch throws and leaves the buffer unchanged. -/
theorem mseGrad_total_size (ps : List ℕ) (p : List ℚ) (ts : List ℕ)
    (t : List ℚ) (gs : List ℕ) (g0 : List ℚ) :
    (ps = ts → ps = gs → flatSize gs ≤ g0.length →
      MSEGrad ps p ts t gs g0
        = (none, (List.range (flatSize gs)).map (fun i =>
            -2 * (t.getD i 0 - p.getD i 0) / (flatSize gs : ℚ))
            ++ g0.drop (flatSize gs)))
    ∧ (¬ (ps = ts ∧ ps = gs) →
      (MSEGrad ps p ts t gs g0).1.isSome = true
      ∧ (MSEGrad ps p ts t gs g0).2 = g0) := by
  constructor
  · intro h1 h2 h3
    rw [MSEGrad, if_neg (by simp [h1]), if_neg (by simp [h2])]
    show (none, writeSeq g0 (flatSize gs) _) = _
    rw [writeSeq_eq _ _ _ h3]
  · intro h
    by_cases h1 : ps = ts
    · have h2 : ps ≠ gs := fun hc => h ⟨h1, hc⟩
      rw [MSEGrad, if_neg (by simp [h1]), if_pos (by simp [h2])]
      exact ⟨rfl, rfl⟩
    · rw [MSEGrad, if_pos (by simp [h1])]
      exact ⟨rfl, rfl⟩

/-- Witness for the amended C2 theorem: both branches instantiated,
the success branch at shapes `[2,1]` and the failure branch at
mismatched `y_true` shape `[2]`. -/
theorem mseGrad_total_size_witness :
    (MSEGrad [2, 1] [0, 0] [2, 1] [1, 1] [2, 1] [9, 9]
      = (none, (List.range (flatSize [2, 1])).map (fun i =>
          -2 * (([1, 1].getD i 0 : ℚ) - ([0, 0] : List ℚ).getD i 0)
            / (flatSize [2, 1] : ℚ))
          ++ ([9, 9] : List ℚ).drop (flatSize [2, 1])))
    ∧ ((MSEGrad [2, 1] [0, 0] [2] [1, 1] [2, 1] [9, 9]).1.isSome = true
      ∧ (MSEGrad [2, 1] [0, 0] [2] [1, 1] [2, 1] [9, 9]).2 = [9, 9]) :=
  ⟨(mseGrad_total_size [2, 1] [0, 0] [2, 1] [1, 1] [2, 1] [9, 9]).1
      rfl rfl (by decide),
   (mseGrad_total_size [2, 1] [0, 0] [2] [1, 1] [2, 1] [9, 9]).2
      (by decide)⟩

/-- C5: `MSE` demands a rank-1 output whose extent is `y_pred`'s batch
dimension and identical `y_pred`/`y_true` shapes, throwing otherwise
with the buffer untouched; on success it writes, per batch row, the
mean of the squared elementwise differences over the flattened
per-batch extent. -/
theorem mse_spec (ps : List ℕ) (p : List ℚ) (ts : List ℕ) (t : List ℚ)
    (os : List ℕ) (o0 : List ℚ) :
    (os.length = 1 → os.getD 0 0 = ps.getD 0 0 → ps = ts →
      ps.getD 0 0 ≤ o0.length →
      MSE ps p ts t os o0 = (none,
        (List.range (ps.getD 0 0)).map (fun b =>
          (∑ i in Finset.range (flatSizeSkipDim ps 0),
            square (p.getD (b * flatSizeSkipDim ps 0 + i) 0
                    - t.getD (b * flatSizeSkipDim ps 0 + i) 0))
          / (flatSizeSkipDim ps 0 : ℚ)) ++ o0.drop (ps.getD 0 0)))
    ∧ (¬ (os.length = 1 ∧ os.getD 0 0 = ps.getD 0 0 ∧ ps = ts) →
      (MSE ps p ts t os o0).1.isSome = true ∧ (MSE ps p ts t os o0).2 = o0) := by
  constructor
  · intro h1 h2 h3 h4
    rw [MSE, if_neg (not_not_intro h1), if_neg (not_not_intro h2),
      if_neg (not_not_intro h3)]
    show (none, writeSeq o0 (ps.getD 0 0) _) = _
    rw [writeSeq_eq _ _ _ h4]
  · intro h
    by_cases h1 : os.length = 1
    · by_cases h2 : os.getD 0 0 = ps.getD 0 0
      · have h3 : ps ≠ ts := fun hc => h ⟨h1, h2, hc⟩
        rw [MSE, if_neg (not_not_intro h1), if_neg (not_not_intro h2), if_pos h3]
        exact ⟨rfl, rfl⟩
      · rw [MSE, if_neg (not_not_intro h1), if_pos h2]
        exact ⟨rfl, rfl⟩
    · rw [MSE, if_pos h1]
      exact ⟨rfl, rfl⟩

/-- Witness for C5: the success branch at `y_pred = [1,2]`,
`y_true = [0,0]` of shape `[1,2]` (one batch row, loss `5/2`), and the
failure branch at a rank-2 output shape. -/
theorem mse_spec_witness :
    (MSE [1, 2] [1, 2] [1, 2] [0, 0] [1] [7] = (none,
      (List.range (([1, 2] : List ℕ).getD 0 0)).map (fun b =>
        (∑ i in Finset.range (flatSizeSkipDim [1, 2] 0),
          square (([1, 2] : List ℚ).getD (b * flatSizeSkipDim [1, 2] 0 + i) 0
                  - ([0, 0] : List ℚ).getD (b * flatSizeSkipDim [1, 2] 0 + i) 0))
        / (flatSizeSkipDim [1, 2] 0 : ℚ)) ++ ([7] : List ℚ).drop (([1, 2] : List ℕ).getD 0 0)))
    ∧ ((MSE [1, 2] [1, 2] [1, 2] [0, 0] [1, 1] [7]).1.isSome = true
      ∧ (MSE [1, 2] [1, 2] [1, 2] [0, 0] [1, 1] [7]).2 = [7]) :=
  ⟨(mse_spec [1, 2] [1, 2] [1, 2] [0, 0] [1] [7]).1 rfl rfl rfl (by decide),
   (mse_spec [1, 2] [1, 2] [1, 2] [0, 0] [1, 1] [7]).2 (by decide)⟩

/-- C7: a `y_pred` element outside `[0,1]` makes both
`CategoricalCrossEntropy` and `CategoricalCrossEntropyGrad` throw a
domain error, with the output/gradient buffer left exactly as it was. -/
theorem cce_domain_rejection (lg : ℚ → ℚ) (yp yt o0 g0 : List ℚ)
    (batch isz : ℕ) (h : checkValue yp (isz * batch) 0 1 = false) :
    CategoricalCrossEntropy lg yp yt o0 batch isz
      = (some "cker::CategoricalCrossEntropy: y_pred data is not logit data.", o0)
    ∧ CategoricalCrossEntropyGrad yp yt g0 batch isz
      = (some "cker::CategoricalCrossEntropyGrad: y_pred data is not logit data.", g0) := by
  constructor
  · rw [CategoricalCrossEntropy, h]
    rfl
  · rw [CategoricalCrossEntropyGrad, h]
    rfl

/-- Witness for C7: the rejection fires both at `y_pred = [3/2]` and at
`y_pred = [-1/10]`, the two values the spec names, leaving the buffers
(`[4]`, `[5]`) unchanged. -/
theorem cce_domain_rejection_witness :
    (CategoricalCrossEntropy id [3 / 2] [1] [4] 1 1
      = (some "cker::CategoricalCrossEntropy: y_pred data is not logit data.", [4])
    ∧ CategoricalCrossEntropyGrad [3 / 2] [1] [5] 1 1
      = (some "cker::CategoricalCrossEntropyGrad: y_pred data is not logit data.", [5]))
    ∧ (CategoricalCrossEntropy id [-1 / 10] [1] [4] 1 1
      = (some "cker::CategoricalCrossEntropy: y_pred data is not logit data.", [4])
    ∧ CategoricalCrossEntropyGrad [-1 / 10] [1] [5] 1 1
      = (some "cker::CategoricalCrossEntropyGrad: y_pred data is not logit data.", [5])) :=
  ⟨cce_domain_rejection id [3 / 2] [1] [4] [5] 1 1
      (by norm_num [checkValue, List.range_succ]),
   cce_domain_rejection id [-1 / 10] [1] [4] [5] 1 1
      (by norm_num [checkValue, List.range_succ])⟩

/-- C6: when every `y_pred` element lies in `[0,1]`, the value written
to `output[0]` — computed by the code with zero-label terms skipped —
is exactly `-sum(yTrue * log(max(yPred, 1e-20))) / batchSize`, for any
interpretation `lg` of the logarithm. -/
theorem cce_matches_spec_value (lg : ℚ → ℚ) (yp yt o0 : List ℚ)
    (batch isz : ℕ) (h : checkValue yp (isz * batch) 0 1 = true) :
    CategoricalCrossEntropy lg yp yt o0 batch isz
      = (none, o0.set 0 (cceSpecValue lg yp yt batch isz)) := by
  rw [CategoricalCrossEntropy, h]
  show (none, o0.set 0 _) = _
  have hsum : (∑ b in Finset.range batch,
      ∑ i in Finset.range isz,
        if yt.getD (b * isz + i) 0 ≠ 0 then
          -(lg (max (yp.getD (b * isz + i) 0) epsCCE)) * yt.getD (b * isz + i) 0
        else 0)
      = -(∑ b in Finset.range batch,
          ∑ i in Finset.range isz,
            yt.getD (b * isz + i) 0 * lg (max (yp.getD (b * isz + i) 0) epsCCE)) := by
    rw [← Finset.sum_neg_distrib]
    apply Finset.sum_congr rfl
    intro b _
    rw [← Finset.sum_neg_distrib]
    apply Finset.sum_congr rfl
    intro i _
    by_cases hy : yt.getD (b * isz + i) 0 = 0
    · rw [if_neg (not_not_intro hy), hy]
      ring
    · rw [if_pos hy]
      ring
  rw [hsum, cceSpecValue, neg_div]

/-- Witness for C6: a one-element probability vector `[1/2]` with label
`[1]` and a zero second batch entry passes the domain check, and the
code's output agrees with the spec's formula. -/
theorem cce_matches_spec_value_witness :
    checkValue [(1 : ℚ) / 2, 1] (1 * 2) 0 1 = true
    ∧ CategoricalCrossEntropy id [(1 : ℚ) / 2, 1] [1, 0] [9] 2 1
      = (none, ([9] : List ℚ).set 0 (cceSpecValue id [(1 : ℚ) / 2, 1] [1, 0] 2 1)) :=
  ⟨by norm_num [checkValue, List.range_succ],
   cce_matches_spec_value id [(1 : ℚ) / 2, 1] [1, 0] [9] 2 1
      (by norm_num [checkValue, List.range_succ])⟩

theorem replaceOperation_map_fst (tg : TrainableGraph) (i : ℕ)
    (o : TrainableOperation) :
    ((tg.replaceOperation i o).1).operations.map Prod.fst
      = tg.operations.map Prod.fst := by
  show (tg.operations.map fun p => if p.1 = i then (i, o) else p).map Prod.fst = _
  rw [List.map_map]
  apply List.map_congr_left
  intro p _
  by_cases h : p.1 = i <;> simp [h]

theorem convert_foldl_map_fst (ops : List (ℕ × Operation)) (tg : TrainableGraph) :
    (ops.foldl (fun tg p => (tg.replaceOperation p.1 (convertOperation p.2)).1)
        tg).operations.map Prod.fst
      = tg.operations.map Prod.fst := by
  induction ops generalizing tg with
  | nil => rfl
  | cons hd tl ih => rw [List.foldl_cons, ih, replaceOperation_map_fst]

/-- C4: converting an inference graph to a trainable graph preserves
the operation index set exactly — the converted graph carries the very
same index list — and each in-place replacement generates the index it
replaced, which is what the conversion loop's assertion checks. -/
theorem convertToTrainable_index_stable :
    (∀ g : Graph, (convertToTrainable g).operations.map Prod.fst
        = g.operations.map Prod.fst)
    ∧ ∀ (tg : TrainableGraph) (idx : ℕ) (op : TrainableOperation),
        (tg.replaceOperation idx op).2 = idx := by
  refine ⟨fun g => ?_, fun _ _ _ => rfl⟩
  rw [convertToTrainable, convert_foldl_map_fst]
  show (g.operations.map _).map Prod.fst = _
  rw [List.map_map]
  apply List.map_congr_left
  intro p _
  rfl

theorem trainingCompile_error_of_checkOptions (pkg : NNPkg) (o : CompilerOptions)
    (h : ∃ m, checkOptions o = some m) :
    ∃ msg, trainingCompile pkg o = ([], Except.error msg) := by
  obtain ⟨m, hm⟩ := h
  rcases hc : trainingCompilerCheck pkg with _ | e
  · rw [trainingCompile, hc, hm]
    exact ⟨m, rfl⟩
  · rw [trainingCompile, hc]
    exact ⟨e, rfl⟩

theorem checkOptions_profiling_linear (o : CompilerOptions)
    (h1 : o.he_profiling_mode = true) (h2 : o.executor = "Linear") :
    ∃ m, checkOptions o = some m := by
  cases hs : o.he_scheduler
  · exact ⟨"Heterogeneous scheduler must be enabled during profiling.",
      by simp [checkOptions, checkProfilingOptions, h1, hs]⟩
  · exact ⟨"Profiling mode works only with Dataflow executor",
      by simp [checkOptions, checkProfilingOptions, h1, h2, hs]⟩

theorem checkOptions_minmax (o : CompilerOptions)
    (h1 : o.minmax_filepath ≠ "") (h2 : o.executor ≠ "Linear") :
    ∃ m, checkOptions o = some m := by
  cases hp : o.he_profiling_mode
  · exact ⟨"Recording minmax works only with Linear executor",
      by simp [checkOptions, checkProfilingOptions, checkMinmaxOptions, hp, h1, h2]⟩
  · cases hs : o.he_scheduler
    · exact ⟨"Heterogeneous scheduler must be enabled during profiling.",
        by simp [checkOptions, checkProfilingOptions, hp, hs]⟩
    · by_cases hd : o.executor = "Dataflow"
      · exact ⟨"Recording minmax works only with Linear executor",
          by simp [checkOptions, checkProfilingOptions, checkMinmaxOptions,
            hp, hs, hd, h1, h2]⟩
      · exact ⟨"Profiling mode works only with Dataflow executor",
          by simp [checkOptions, checkProfilingOptions, hp, hs, hd]⟩

/-- C3: profiling together with the Linear executor, or a non-empty
minmax path together with a non-Linear executor, makes the compile
fail during the option prelude: the result is an error and the event
trace is empty — no pass body ran and no graph was touched. -/
theorem trainingCompile_option_conflicts (pkg : NNPkg) (o : CompilerOptions) :
    (o.he_profiling_mode = true → o.executor = "Linear" →
      ∃ msg, trainingCompile pkg o = ([], Except.error msg))
    ∧ (o.minmax_filepath ≠ "" → o.executor ≠ "Linear" →
      ∃ msg, trainingCompile pkg o = ([], Except.error msg)) :=
  ⟨fun h1 h2 => trainingCompile_error_of_checkOptions pkg o
      (checkOptions_profiling_linear o h1 h2),
   fun h1 h2 => trainingCompile_error_of_checkOptions pkg o
      (checkOptions_minmax o h1 h2)⟩

/-- Witness for C3: a valid one-model, one-subgraph package rejected
once for profiling with the Linear executor and once for minmax
recording with the Dataflow executor. -/
theorem trainingCompile_option_conflicts_witness :
    (∃ msg, trainingCompile ⟨[⟨[⟨[]⟩]⟩]⟩ ⟨true, true, "Linear", ""⟩
      = ([], Except.error msg))
    ∧ (∃ msg, trainingCompile ⟨[⟨[⟨[]⟩]⟩]⟩ ⟨false, false, "Dataflow", "mm.json"⟩
      = ([], Except.error msg)) :=
  ⟨(trainingCompile_option_conflicts ⟨[⟨[⟨[]⟩]⟩]⟩ ⟨true, true, "Linear", ""⟩).1
      rfl rfl,
   (trainingCompile_option_conflicts ⟨[⟨[⟨[]⟩]⟩]⟩
      ⟨false, false, "Dataflow", "mm.json"⟩).2 (by decide) (by decide)⟩

/-- C10: with profiling enabled and the heterogeneous scheduler
disabled, compile fails with the scheduler configuration error before
any pass runs, whatever the executor — the Dataflow executor required
by the spec's stated profiling condition does not save the compile. -/
theorem trainingCompile_profiling_needs_scheduler (pkg : NNPkg)
    (o : CompilerOptions) (hpkg : trainingCompilerCheck pkg = none)
    (h1 : o.he_profiling_mode = true) (h2 : o.he_scheduler = false) :
    trainingCompile pkg o
      = ([], Except.error
          "Heterogeneous scheduler must be enabled during profiling.") := by
  have hc : checkOptions o
      = some "Heterogeneous scheduler must be enabled during profiling." := by
    simp [checkOptions, checkProfilingOptions, h1, h2]
  rw [trainingCompile, hpkg, hc]

/-- Witness for C10: a valid package compiled with profiling on, the
scheduler off, and the executor set to Dataflow still fails. -/
theorem trainingCompile_profiling_needs_scheduler_witness :
    trainingCompilerCheck ⟨[⟨[⟨[]⟩]⟩]⟩ = none
    ∧ trainingCompile ⟨[⟨[⟨[]⟩]⟩]⟩ ⟨true, false, "Dataflow", ""⟩
      = ([], Except.error
          "Heterogeneous scheduler must be enabled during profiling.") :=
  ⟨rfl, trainingCompile_profiling_needs_scheduler ⟨[⟨[⟨[]⟩]⟩]⟩
      ⟨true, false, "Dataflow", ""⟩ rfl rfl rfl⟩

/-- C9: a package with more than one model, or whose primary model has
more than one subgraph, is rejected by the constructor check — the
compile returns an error with an empty event trace, so no conversion
or pass work was begun. -/
theorem trainingCompile_rejects_multi (pkg : NNPkg) (o : CompilerOptions)
    (h : pkg.models.length > 1 ∨ pkg.primaryModel.subgraphs.length > 1) :
    ∃ msg, trainingCompile pkg o = ([], Except.error msg) := by
  have hc : ∃ m, trainingCompilerCheck pkg = some m := by
    by_cases hm : pkg.models.length > 1
    · exact ⟨"TrainingCompiler does not support multiple models yet",
        by rw [trainingCompilerCheck, if_pos hm]⟩
    · have hs : pkg.primaryModel.subgraphs.length > 1 := h.resolve_left hm
      exact ⟨"TrainingCompiler does not support multiple subgraphs yet",
        by rw [trainingCompilerCheck, if_neg hm, if_pos hs]⟩
  obtain ⟨m, hm⟩ := hc
  rw [trainingCompile, hm]
  exact ⟨m, rfl⟩

/-- Witness for C9: a two-model package and a one-model, two-subgraph
package are both rejected. -/
theorem trainingCompile_rejects_multi_witness :
    (∃ msg, trainingCompile ⟨[⟨[⟨[]⟩]⟩, ⟨[⟨[]⟩]⟩]⟩ ⟨false, false, "Linear", ""⟩
      = ([], Except.error msg))
    ∧ (∃ msg, trainingCompile ⟨[⟨[⟨[]⟩, ⟨[]⟩]⟩]⟩ ⟨false, false, "Linear", ""⟩
      = ([], Except.error msg)) :=
  ⟨trainingCompile_rejects_multi ⟨[⟨[⟨[]⟩]⟩, ⟨[⟨[]⟩]⟩]⟩ ⟨false, false, "Linear", ""⟩
      (Or.inl (by decide)),
   trainingCompile_rejects_multi ⟨[⟨[⟨[]⟩, ⟨[]⟩]⟩]⟩ ⟨false, false, "Linear", ""⟩
      (Or.inr (by decide))⟩

end ONE
